import Mathlib

/-!
Verification development for the dream-journal single-page application.

The JavaScript modules of the repository (dreams-module.js, search-module.js,
stats-module.js, reality-module.js, ui-utils.js, firebase-init.js) are shallowly
embedded below.  Pure computations (tokenization, filtering, sorting, counting)
are translated directly; the Firestore and HTTP effects are made explicit:
each operation takes the outcome of its store / network calls as boolean or
optional parameters, and returns the updated client-visible state together with
the list of user-facing messages it shows and the list of store / network calls
it issues.  Timestamps are milliseconds since the epoch (`Int`); a document
whose timestamp is missing or still pending carries `none`.
-/

namespace DreamApp

/-- A user-facing notice shown by showMessage or written into a result list
(kind is the first showMessage argument: success, error or info; kind ui marks
text written directly into the page). -/
structure Msg where
  kind : String
  text : String
deriving Repr, DecidableEq

/-- A call issued against the document store or the network. -/
inductive StoreCall where
  | addDoc (path : String)
  | updateDoc (path : String)
  | deleteDoc (path : String)
  | getDocs (path : String)
  | fetch (url : String)
deriving Repr, DecidableEq

/-- Uniform shape of an embedded operation: its return value, the state of the
data it touches after the call, the messages shown, and the calls issued. -/
structure OpResult (σ : Type) (α : Type) where
  value : α
  state : σ
  msgs : List Msg
  calls : List StoreCall
deriving Repr, DecidableEq

/-- The guard `x.timestamp ? x.timestamp.toDate().getTime() : 0` used throughout
the client: a missing timestamp is read as 0. -/
def tsVal : Option Int → Int
  | some t => t
  | none => 0

/-- JS String.prototype.toLowerCase, faithful on the ASCII range the
tokenizer and search matching care about. -/
def jsToLower (s : String) : String := ⟨s.data.map Char.toLower⟩

/-- JS String.prototype.trim: strip whitespace from both ends. -/
def jsTrim (s : String) : String :=
  ⟨((s.data.dropWhile Char.isWhitespace).reverse.dropWhile Char.isWhitespace).reverse⟩

/-- Helper for jsIncludes: does needle occur at some position of the haystack? -/
def inclAux (needle : List Char) : List Char → Bool
  | [] => needle.isEmpty
  | c :: rest => needle.isPrefixOf (c :: rest) || inclAux needle rest

/-- JS String.prototype.includes: substring containment. -/
def jsIncludes (hay needle : String) : Bool := inclAux needle.toList hay.toList

/-! ## Dream lifecycle (dreams-module.js)

The two collections the lifecycle operations touch.  Document ids are chosen by
the store on addDoc and are passed in as parameters; serverTimestamp fields are
not needed by the lifecycle claims and are left out of these two records. -/

/-- A draft_dreams document. -/
structure DraftDoc where
  id : String
  dreamText : String
  dreamTitle : String
  isPreAnalyzed : Bool
deriving Repr, DecidableEq

/-- An archived_dreams document. -/
structure ArchDoc where
  id : String
  dreamText : String
  analysisText : String
  dreamTitle : String
  matchedRealityEvent : String
deriving Repr, DecidableEq

/-- The per-user slice of the store the lifecycle operations read and write. -/
structure Store where
  drafts : List DraftDoc
  archived : List ArchDoc
deriving Repr, DecidableEq

/-- saveDraftDream: refuses unauthenticated use, otherwise addDoc into
draft_dreams.  `addOk` is the outcome of the addDoc call (a rejection is caught
and surfaced); `newId` is the id the store assigns. -/
def saveDraftDream (auth addOk : Bool) (newId dreamText dreamTitle : String)
    (isPreAnalyzed : Bool) (st : Store) : OpResult Store (Option String) :=
  if !auth then
    ⟨none, st, [⟨"error", "Please sign in to save dreams."⟩], []⟩
  else if addOk then
    ⟨some newId,
     { st with drafts := st.drafts ++ [⟨newId, dreamText, dreamTitle, isPreAnalyzed⟩] },
     [⟨"success", "Dream draft saved!"⟩], [.addDoc "draft_dreams"]⟩
  else
    ⟨none, st, [⟨"error", "Failed to save dream draft"⟩], [.addDoc "draft_dreams"]⟩

/-- updateDraftDream: refuses when unauthenticated or no draft id; otherwise
updateDoc on the draft (text, title, isPreAnalyzed; the timestamp refresh is
not modeled). -/
def updateDraftDream (auth updOk : Bool) (draftId dreamText dreamTitle : String)
    (isPreAnalyzed : Bool) (st : Store) : OpResult Store Unit :=
  if !auth || draftId = "" then
    ⟨(), st, [⟨"error", "Cannot update draft. Please sign in or select a draft."⟩], []⟩
  else if updOk then
    ⟨(), { st with drafts := st.drafts.map (fun d =>
            if d.id == draftId then
              { d with dreamText := dreamText, dreamTitle := dreamTitle,
                       isPreAnalyzed := isPreAnalyzed }
            else d) },
     [], [.updateDoc "draft_dreams"]⟩
  else
    ⟨(), st, [⟨"error", "Failed to update draft dream"⟩], [.updateDoc "draft_dreams"]⟩

/-- deleteDraftDream: refuses when unauthenticated or no draft id; otherwise
deleteDoc on draft_dreams.  A rejected delete is caught and surfaced as an
error message, it is not re-thrown to the caller. -/
def deleteDraftDream (auth delOk : Bool) (draftId : String) (st : Store) :
    OpResult Store Unit :=
  if !auth || draftId = "" then
    ⟨(), st, [⟨"error", "Cannot delete draft. Please sign in or select a draft."⟩], []⟩
  else if delOk then
    ⟨(), { st with drafts := st.drafts.filter (fun d => d.id != draftId) },
     [⟨"success", "Draft dream deleted!"⟩], [.deleteDoc "draft_dreams"]⟩
  else
    ⟨(), st, [⟨"error", "Failed to delete draft dream"⟩], [.deleteDoc "draft_dreams"]⟩

/-- saveAnalyzedDream: refuses unauthenticated use, otherwise addDoc into
archived_dreams with matchedRealityEvent initialized to the empty string.  A
rejected write is caught inside this function and surfaced as an error message;
it is not re-thrown to the caller. -/
def saveAnalyzedDream (auth addOk : Bool) (newId dreamText analysisJsonString dreamTitle : String)
    (st : Store) : OpResult Store Unit :=
  if !auth then
    ⟨(), st, [⟨"error", "Please sign in to save dreams."⟩], []⟩
  else if addOk then
    ⟨(), { st with archived := st.archived ++ [⟨newId, dreamText, analysisJsonString, dreamTitle, ""⟩] },
     [⟨"success", "Dream analyzed and archived successfully!"⟩], [.addDoc "archived_dreams"]⟩
  else
    ⟨(), st, [⟨"error", "Failed to save analyzed dream"⟩], [.addDoc "archived_dreams"]⟩

/-- deleteArchivedDream: refuses when unauthenticated or no id; otherwise
deleteDoc on archived_dreams. -/
def deleteArchivedDream (auth delOk : Bool) (dreamId : String) (st : Store) :
    OpResult Store Unit :=
  if !auth || dreamId = "" then
    ⟨(), st, [⟨"error", "Cannot delete archived dream. Please sign in or select a dream."⟩], []⟩
  else if delOk then
    ⟨(), { st with archived := st.archived.filter (fun d => d.id != dreamId) },
     [⟨"success", "Archived dream deleted!"⟩], [.deleteDoc "archived_dreams"]⟩
  else
    ⟨(), st, [⟨"error", "Failed to delete archived dream"⟩], [.deleteDoc "archived_dreams"]⟩

/-! ## Analysis client (performDreamAnalysis) -/

/-- An HTTP response as the analysis client observes it: the status code, and
the outcome of reading the body.  `parsed = none` means response.json() throws
(non-JSON body); `parsed = some none` means the body is JSON but the
candidates[0].content.parts[0] path is absent or empty; `parsed = some (some t)`
means that path is present and its text is `t`. -/
structure ApiResponse where
  status : Int
  parsed : Option (Option String)
deriving Repr, DecidableEq

/-- Is an HTTP status a success status?  (Stated for the specification only:
the client code never inspects the status.) -/
def is2xx (status : Int) : Bool := decide (200 ≤ status) && decide (status < 300)

/-- performDreamAnalysis: refuses unauthenticated use; `transport = none`
models the fetch promise rejecting.  On a readable response it returns the text
at the candidate path and otherwise returns null with an error message; the
display-only branch (forArchiving = false) only renders and does not change the
returned value, so it is not modeled. -/
def performDreamAnalysis (auth : Bool) (transport : Option ApiResponse) :
    OpResult Unit (Option String) :=
  if !auth then
    ⟨none, (), [⟨"error", "Please sign in to analyze dreams."⟩], []⟩
  else
    match transport with
    | none =>
        ⟨none, (), [⟨"error", "Dream analysis failed"⟩], [.fetch "generateContent"]⟩
    | some resp =>
        match resp.parsed with
        | none =>
            ⟨none, (), [⟨"error", "Dream analysis failed"⟩], [.fetch "generateContent"]⟩
        | some none =>
            ⟨none, (), [⟨"error", "Could not analyze dream. Please try again."⟩],
             [.fetch "generateContent"]⟩
        | some (some t) =>
            ⟨some t, (), [], [.fetch "generateContent"]⟩

/-- analyzeAndArchiveDream: runs the analysis, then saveAnalyzedDream, then
deleteDraftDream.  `analysisResult` is the value performDreamAnalysis returned
(`some ""` is falsy in JS and takes the failure branch).  Because the two
sub-operations catch their own store errors, control always reaches the final
success message once the analysis has returned a non-empty string. -/
def analyzeAndArchiveDream (auth : Bool) (analysisResult : Option String)
    (addOk delOk : Bool) (newId draftId dreamText dreamTitle : String) (st : Store) :
    OpResult Store Unit :=
  if !auth then
    ⟨(), st, [⟨"error", "Please sign in to analyze and archive dreams."⟩], []⟩
  else
    match analysisResult with
    | some analysisJsonString =>
        if analysisJsonString = "" then
          ⟨(), st, [⟨"error", "Analysis failed, dream not archived."⟩], []⟩
        else
          let r1 := saveAnalyzedDream auth addOk newId dreamText analysisJsonString dreamTitle st
          let r2 := deleteDraftDream auth delOk draftId r1.state
          ⟨(), r2.state,
           r1.msgs ++ r2.msgs ++ [⟨"success", "Dream analyzed and moved to Archive!"⟩],
           r1.calls ++ r2.calls⟩
    | none => ⟨(), st, [⟨"error", "Analysis failed, dream not archived."⟩], []⟩

/-- Does a message list contain an error-kind message? -/
def hasError (msgs : List Msg) : Bool := msgs.any (fun m => m.kind == "error")

/-! ## Search and match (search-module.js) -/

/-- An archived_dreams document as the search reads it (the analysisText field
is not consulted by the search code and is left out of this projection). -/
structure DreamDoc where
  id : String
  dreamText : String
  dreamTitle : String
  timestamp : Option Int
  matchedRealityEvent : String
deriving Repr, DecidableEq

/-- A daily_events document. -/
structure EventDoc where
  id : String
  eventText : String
  timestamp : Option Int
deriving Repr, DecidableEq

/-- An entry pushed into dreamResults by performSearch. -/
structure DreamResult where
  id : String
  type : String
  content : String
  title : String
  timestamp : Option Int
  matchedRealityEvent : String
deriving Repr, DecidableEq

/-- An entry pushed into eventResults by performSearch. -/
structure EventResult where
  id : String
  type : String
  content : String
  timestamp : Option Int
deriving Repr, DecidableEq

/-- The client clock at search time.  lastYearStartMs is the value of
new Date(now.getFullYear() - 1, now.getMonth(), now.getDate()).getTime(); the
calendar arithmetic behind it is kept abstract. -/
structure Clock where
  nowMs : Int
  lastYearStartMs : Int

/-- The time-scope selector values the search understands. -/
inductive TimeScope where
  | last7Days | last30Days | lastYear | allTime
deriving Repr, DecidableEq

/-- One day in milliseconds (24 * 60 * 60 * 1000). -/
def dayMs : Int := 24 * 60 * 60 * 1000

/-- The startDate computed by performSearch: new Date(0) for allTime, otherwise
a relative cutoff. -/
def scopeStartMs (clk : Clock) : TimeScope → Int
  | .last7Days => clk.nowMs - 7 * dayMs
  | .last30Days => clk.nowMs - 30 * dayMs
  | .lastYear => clk.lastYearStartMs
  | .allTime => 0

/-- The filter applied to each archived dream: lowercased text or title
contains the term, and the timestamp (0 when missing) is at or after the
window start. -/
def dreamMatches (term : String) (startMs : Int) (d : DreamDoc) : Bool :=
  (jsIncludes (jsToLower d.dreamText) term || jsIncludes (jsToLower d.dreamTitle) term)
    && decide (startMs ≤ tsVal d.timestamp)

/-- The record pushed into dreamResults for a matching dream. -/
def toDreamResult (d : DreamDoc) : DreamResult :=
  ⟨d.id, "Dream", d.dreamText, d.dreamTitle, d.timestamp, d.matchedRealityEvent⟩

/-- The filter applied to each daily event. -/
def eventMatches (term : String) (startMs : Int) (e : EventDoc) : Bool :=
  jsIncludes (jsToLower e.eventText) term && decide (startMs ≤ tsVal e.timestamp)

/-- The record pushed into eventResults for a matching event. -/
def toEventResult (e : EventDoc) : EventResult :=
  ⟨e.id, "Daily Event", e.eventText, e.timestamp⟩

/-- The comparator (a, b) => timestampB - timestampA used by
displaySearchResults and the other client-side sorts: descending by the
timestamp read as 0 when missing. -/
def tsDescBy {α : Type} (key : α → Option Int) (a b : α) : Prop :=
  tsVal (key b) ≤ tsVal (key a)

instance {α : Type} (key : α → Option Int) : DecidableRel (tsDescBy key) :=
  fun _ _ => Int.decLe _ _

instance {α : Type} (key : α → Option Int) : IsTotal α (tsDescBy key) :=
  ⟨fun a b => Int.le_total (tsVal (key b)) (tsVal (key a))⟩

instance {α : Type} (key : α → Option Int) : IsTrans α (tsDescBy key) :=
  ⟨fun _ _ _ h1 h2 => le_trans h2 h1⟩

/-- Array.prototype.sort with the descending timestamp comparator. -/
def sortByTsDesc {α : Type} (key : α → Option Int) (l : List α) : List α :=
  List.insertionSort (tsDescBy key) l

/-- The searchTerm actually compared: input value trimmed then lowercased. -/
def searchTermOf (rawInput : String) : String := jsToLower (jsTrim rawInput)

/-- The dream half of the search: filter the fetched archived dreams, build
result records, and sort them most-recent-first (the sort is performed in
displaySearchResults). -/
def searchDreamResults (term : String) (startMs : Int) (dreams : List DreamDoc) :
    List DreamResult :=
  sortByTsDesc (fun r => r.timestamp) ((dreams.filter (dreamMatches term startMs)).map toDreamResult)

/-- The event half of the search, analogous to the dream half.  Note the
daily_events query here carries no row limit: every daily event of the user is
fetched and only the term and window filters are applied. -/
def searchEventResults (term : String) (startMs : Int) (events : List EventDoc) :
    List EventResult :=
  sortByTsDesc (fun r => r.timestamp) ((events.filter (eventMatches term startMs)).map toEventResult)

/-- The two result lists displaySearchResults receives. -/
structure SearchOutput where
  dreamResults : List DreamResult
  eventResults : List EventResult
deriving Repr, DecidableEq

/-- performSearch: refuses an empty term, then refuses unauthenticated use
(both with text written into the results list), otherwise fetches both
collections in full and filters and sorts them client-side. -/
def performSearch (auth : Bool) (rawInput : String) (scope : TimeScope) (clk : Clock)
    (dreams : List DreamDoc) (events : List EventDoc) :
    OpResult Unit (Option SearchOutput) :=
  let term := searchTermOf rawInput
  if term = "" then
    ⟨none, (), [⟨"ui", "Please enter a search term."⟩], []⟩
  else if !auth then
    ⟨none, (), [⟨"ui", "Please sign in to search your data."⟩], []⟩
  else
    let startMs := scopeStartMs clk scope
    ⟨some ⟨searchDreamResults term startMs dreams, searchEventResults term startMs events⟩,
     (), [], [.getDocs "archived_dreams", .getDocs "daily_events"]⟩

/-! ## Daily events (reality-module.js) -/

/-- saveDailyEvent: refuses unauthenticated use, otherwise addDoc into
daily_events with a server timestamp (`ts` is the value the store assigns). -/
def saveDailyEvent (auth addOk : Bool) (newId : String) (ts : Option Int)
    (eventText : String) (events : List EventDoc) : OpResult (List EventDoc) Unit :=
  if !auth then
    ⟨(), events, [⟨"error", "Please sign in to log daily events."⟩], []⟩
  else if addOk then
    ⟨(), events ++ [⟨newId, eventText, ts⟩], [⟨"success", "Daily event logged!"⟩],
     [.addDoc "daily_events"]⟩
  else
    ⟨(), events, [⟨"error", "Failed to log daily event"⟩], [.addDoc "daily_events"]⟩

/-- The query issued by loadDailyEvents: orderBy timestamp descending with
limit(10).  The store ordering is modeled with the same missing-reads-as-0 key
the client sorts use. -/
def loadDailyEventsQuery (events : List EventDoc) : List EventDoc :=
  (sortByTsDesc (fun e => e.timestamp) events).take 10

/-! ## Statistics (stats-module.js)

The aggregations read each archived dream's analysisText through JSON.parse.
The parse outcome is embedded directly: `analysis = none` models a throwing
parse, `analysis = some fields` a JSON object whose values are strings (the
analysis schema requires twelve string fields; JSON values of other shapes are
outside this model). -/

/-- An archived dream as the statistics aggregations consume it. -/
structure StatsDreamDoc where
  id : String
  analysis : Option (List (String × String))
deriving Repr, DecidableEq

/-- The stopWords set of stats-module.js, in source order (the JS Set collapses
the duplicates; membership is all that is consulted). -/
def stopWords : List String :=
  ["a", "an", "the", "and", "but", "or", "for", "nor", "on", "at", "to", "from", "by", "with",
   "in", "out", "into", "through", "over", "under", "of", "about", "above", "below", "up", "down",
   "then", "now", "here", "there", "when", "where", "why", "how", "all", "any", "both", "each",
   "few", "more", "most", "other", "some", "such", "no", "not", "only", "own", "same", "so",
   "than", "too", "very", "s", "t", "can", "will", "just", "don", "should", "now", "ve", "ll",
   "m", "re", "d", "this", "that", "these", "those", "is", "was", "were", "be", "been", "being",
   "have", "has", "had", "do", "does", "did", "doing", "would", "could", "shall", "may", "might",
   "must", "it", "its", "i", "me", "my", "myself", "we", "us", "our", "ours", "ourselves", "you",
   "your", "yours", "yourself", "yourselves", "he", "him", "his", "himself", "she", "her", "hers",
   "herself", "it", "its", "itself", "they", "them", "their", "theirs", "themselves", "what",
   "which", "who", "whom", "whose", "this", "that", "these", "those", "am", "are", "was", "were",
   "be", "been", "being", "have", "has", "had", "having", "do", "does", "did", "doing", "go", "went",
   "gone", "goes", "going", "come", "came", "comes", "coming", "say", "says", "said", "saying",
   "make", "makes", "made", "making", "get", "gets", "got", "getting", "see", "sees", "saw", "seeing",
   "know", "knows", "knew", "knowing", "take", "takes", "took", "taking", "think", "thinks", "thought",
   "thinking", "look", "looks", "looked", "looking", "want", "wants", "wanted", "wanting", "give",
   "gives", "gave", "giving", "use", "uses", "used", "using", "find", "finds", "found", "finding",
   "tell", "tells", "told", "telling", "ask", "asks", "asked", "asking", "work", "works", "worked",
   "working", "seem", "seems", "seemed", "seeming", "feel", "feels", "felt", "feeling", "try",
   "tries", "tried", "trying", "leave", "leaves", "left", "leaving", "call", "calls", "called",
   "calling", "also", "very", "much", "too", "often", "always", "never", "sometimes", "usually",
   "really", "just", "even", "still", "yet", "already", "almost", "around", "away", "back", "down",
   "forward", "here", "in", "off", "on", "out", "over", "under", "of", "about", "above", "below",
   "beneath", "beside", "between", "beyond", "but", "by", "despite", "during", "except", "for",
   "from", "in", "inside", "into", "like", "near", "of", "off", "on", "onto", "opposite", "out",
   "outside", "over", "past", "per", "plus", "round", "save", "since", "than", "through", "to",
   "toward", "under", "underneath", "until", "up", "upon", "with", "within", "without", "i\x27m",
   "you\x27re", "he\x27s", "she\x27s", "it\x27s", "we\x27re", "they\x27re", "i\x27ve", "you\x27ve",
   "we\x27ve", "they\x27ve", "i\x27d", "you\x27d", "he\x27d", "she\x27d", "we\x27d", "they\x27d",
   "i\x27ll", "you\x27ll", "he\x27ll", "she\x27ll", "it\x27ll", "we\x27ll", "they\x27ll",
   "isn\x27t", "aren\x27t", "wasn\x27t", "weren\x27t", "hasn\x27t", "haven\x27t", "hadn\x27t",
   "doesn\x27t", "don\x27t", "didn\x27t", "won\x27t", "wouldn\x27t", "shan\x27t", "shouldn\x27t",
   "can\x27t", "cannot", "couldn\x27t", "mustn\x27t", "here\x27s", "there\x27s", "what\x27s",
   "where\x27s", "when\x27s", "why\x27s", "how\x27s", "let\x27s", "that\x27s", "who\x27s",
   "whom\x27s", "whose\x27s", "this\x27s", "these\x27s", "those\x27s", "mr", "mrs", "ms", "dr",
   "prof", "etc", "e.g.", "i.e.", "vs", "via", "etc", "eg", "ie", "dr", "mr", "mrs", "ms", "prof",
   "fig", "figs", "cf", "viz"]

/-- A character kept by the split regex [^a-z0-9]+ applied to lowercased text. -/
def isTokenChar (c : Char) : Bool :=
  (decide ('a' ≤ c) && decide (c ≤ 'z')) || (decide ('0' ≤ c) && decide (c ≤ '9'))

/-- Maximal runs of token characters; `cur` accumulates the current run in
reverse.  This models split(/[^a-z0-9]+/) up to the empty fragments the split
can produce at the ends, which the length filter of tokenizeAndClean drops
either way. -/
def tokenRuns : List Char → List Char → List (List Char)
  | [], cur => if cur.isEmpty then [] else [cur.reverse]
  | c :: rest, cur =>
      if isTokenChar c then tokenRuns rest (c :: cur)
      else if cur.isEmpty then tokenRuns rest []
      else cur.reverse :: tokenRuns rest []

/-- tokenizeAndClean: lowercase, split on non-alphanumeric runs, keep words of
length above one that are not stop words. -/
def tokenizeAndClean (text : String) : List String :=
  ((tokenRuns (jsToLower text).toList []).map (fun cs => String.mk cs)).filter
    (fun w => decide (w.length > 1) && !stopWords.contains w)

/-- The undefined-or-empty guard at the head of tokenizeAndClean, for a field
read from a parsed analysis object (an absent field reads as undefined). -/
def tokenizeField (v : Option String) : List String :=
  match v with
  | none => []
  | some s => tokenizeAndClean s

/-- map[term] = (map[term] || 0) + 1 on an insertion-ordered object. -/
def bumpTerm (m : List (String × Nat)) (t : String) : List (String × Nat) :=
  if m.any (fun p => p.1 == t) then
    m.map (fun p => if p.1 == t then (p.1, p.2 + 1) else p)
  else m ++ [(t, 1)]

/-- updateFrequencyMap: add each term of the list to the map. -/
def updateFrequencyMap (m : List (String × Nat)) (terms : List String) : List (String × Nat) :=
  terms.foldl bumpTerm m

/-- The numeric value of a digit string (used only on all-digit keys). -/
def decValue (s : String) : Nat :=
  s.data.foldl (fun n c => n * 10 + (c.toNat - 48)) 0

/-- Is the string the canonical decimal form of a JS array index
(an integer below 2^32 - 1)?  Such object keys enumerate before all other
keys, in ascending numeric order. -/
def isArrayIndexKey (s : String) : Bool :=
  !(s == "") && s.toList.all (fun c => decide ('0' ≤ c) && decide (c ≤ '9'))
    && (s == "0" || !(s.data.headD 'x' == '0')) && decide (decValue s < 4294967295)

/-- Ascending numeric order on the array-index keys. -/
def numKeyAsc (a b : String × Nat) : Prop := decValue a.1 ≤ decValue b.1

instance : DecidableRel numKeyAsc := fun _ _ => Nat.decLe _ _

instance : IsTotal (String × Nat) numKeyAsc := ⟨fun _ _ => Nat.le_total _ _⟩

instance : IsTrans (String × Nat) numKeyAsc := ⟨fun _ _ _ => Nat.le_trans⟩

/-- Object.entries on a string-keyed object: array-index-like keys first in
ascending numeric order, then the remaining keys in insertion order. -/
def jsEntries (m : List (String × Nat)) : List (String × Nat) :=
  List.insertionSort numKeyAsc (m.filter (fun p => isArrayIndexKey p.1))
    ++ m.filter (fun p => !isArrayIndexKey p.1)

/-- Stable insertion for the descending-count sort: the new element passes
exactly the elements with strictly greater count, so ties keep the order of the
incoming list. -/
def insertByCountDesc (a : String × Nat) : List (String × Nat) → List (String × Nat)
  | [] => [a]
  | b :: l => if a.2 < b.2 then b :: insertByCountDesc a l else a :: b :: l

/-- sort(([,a],[,b]) => b - a): a stable sort by count descending
(Array.prototype.sort is stable). -/
def sortByCountDesc : List (String × Nat) → List (String × Nat)
  | [] => []
  | a :: l => insertByCountDesc a (sortByCountDesc l)

/-- displayTopTerms: Object.entries, sort by count descending, slice(0, 5). -/
def displayTopTerms (m : List (String × Nat)) : List (String × Nat) :=
  (sortByCountDesc (jsEntries m)).take 5

/-- Modelled from the spec: the tie-breaking rule the specification describes
for displayTopTerms, namely a stable descending sort over the frequency map in
first-encountered (insertion) order, without the array-index enumeration rule
of Object.entries.  Stated for comparison with displayTopTerms. -/
def displayTopTermsSpecOrder (m : List (String × Nat)) : List (String × Nat) :=
  (sortByCountDesc m).take 5

/-- The loadTopInsights frequency map for one analysis field: dreams whose
analysisText fails to parse are skipped (the catch fires before any map
update for that dream).  The six per-field maps of the source are built in one
pass; they are independent, so the pass is modeled per field. -/
def buildFieldFreq (docs : List StatsDreamDoc) (field : String) : List (String × Nat) :=
  docs.foldl (fun m d =>
    match d.analysis with
    | some a => updateFrequencyMap m (tokenizeField (a.lookup field))
    | none => m) []

/-- The six fields loadTopInsights tokenizes. -/
def insightFields : List String :=
  ["emotionalContent", "location", "familiarPersonsSpokenTo", "actionsPerformed",
   "surfacePsychologicalContent", "messagesReceived"]

/-- The top-terms list displayed for one field. -/
def topTermsFor (docs : List StatsDreamDoc) (field : String) : List (String × Nat) :=
  displayTopTerms (buildFieldFreq docs field)

/-- The twelve keys of the categoryCounts object of loadDetailedDreamStats,
in its insertion order. -/
def categoryKeys : List String :=
  ["actionsPerformed", "location", "timeInDream", "movementsThroughTime",
   "emotionalContent", "surfacePsychologicalContent", "workDoneInDream",
   "familiarPersonsSpokenTo", "relationToPastEvents", "relationToFutureEvents",
   "messagesReceived", "awarenessOfSpace"]

/-- The per-field test analysis[key] && analysis[key].trim() !== '' (an absent
field reads as undefined and fails the first conjunct). -/
def fieldCounted (a : List (String × String)) (key : String) : Bool :=
  match a.lookup key with
  | some v => !(v == "") && !(jsTrim v == "")
  | none => false

/-- One iteration of the dreamsSnapshot.forEach of loadDetailedDreamStats: a
parsed analysis bumps every non-empty field; a throwing parse is caught,
logged, and leaves every count unchanged. -/
def statsStep (counts : List (String × Nat)) (d : StatsDreamDoc) : List (String × Nat) :=
  match d.analysis with
  | some a => counts.map (fun p => if fieldCounted a p.1 then (p.1, p.2 + 1) else p)
  | none => counts

/-- The categoryCounts object before the loop. -/
def initCounts : List (String × Nat) := categoryKeys.map (fun k => (k, 0))

/-- loadDetailedDreamStats: refuses unauthenticated use (the stat fields show
N/A), otherwise fetches every archived dream and folds the counting loop over
the snapshot; the value also carries the console warning emitted for each
dream whose analysisText did not parse. -/
def loadDetailedDreamStats (auth : Bool) (docs : List StatsDreamDoc) :
    OpResult Unit (Option (List (String × Nat)) × List String) :=
  if !auth then
    ⟨(none, []), (), [⟨"ui", "N/A"⟩], []⟩
  else
    ⟨(some (docs.foldl statsStep initCounts),
      (docs.filter (fun d => d.analysis.isNone)).map
        (fun d => "Could not parse analysis for dream: " ++ d.id)),
     (), [], [.getDocs "archived_dreams"]⟩

/-! ## Match selection UI (search-module.js) and the save-match handler
(dreams-module.js) -/

/-- The selectedDreamForMatch record kept by the dream checkbox handler. -/
structure DreamSel where
  id : String
  content : String
  title : String
deriving Repr, DecidableEq

/-- The selectedEventForMatch record kept by the event checkbox handler. -/
structure EventSel where
  id : String
  content : String
deriving Repr, DecidableEq

/-- The matching-UI state: which result checkboxes are checked (by id) and the
two module-level selection variables. -/
structure MatchUi where
  checkedDreams : List String
  checkedEvents : List String
  selDream : Option DreamSel
  selEvent : Option EventSel
deriving Repr, DecidableEq

/-- The state right after a search rendered its results: selections reset,
all checkboxes freshly rendered unchecked. -/
def initMatchUi : MatchUi := ⟨[], [], none, none⟩

/-- User interactions the matching UI reacts to.  A toggle carries the
checkbox's state after the user's click. -/
inductive UiEvent where
  | dreamToggle (d : DreamSel) (nowChecked : Bool)
  | eventToggle (e : EventSel) (nowChecked : Bool)
  | newSearch
deriving Repr, DecidableEq

/-- The change handlers: the toggled checkbox keeps its new state, every other
checkbox of the same kind is unchecked (programmatic unchecking fires no change
event, so only the toggled handler updates the selection variable), and a new
search resets everything. -/
def uiStep (s : MatchUi) : UiEvent → MatchUi
  | .dreamToggle d b =>
      { s with checkedDreams := if b then [d.id] else [],
               selDream := if b then some d else none }
  | .eventToggle e b =>
      { s with checkedEvents := if b then [e.id] else [],
               selEvent := if b then some e else none }
  | .newSearch => initMatchUi

/-- handleMatchSelectedClick proceeds (opens the match modal) exactly when both
selection variables are set; otherwise it shows an info message. -/
def matchClickProceeds (s : MatchUi) : Bool :=
  s.selDream.isSome && s.selEvent.isSome

/-- The UI state after a sequence of interactions following a search. -/
def uiRun (evs : List UiEvent) : MatchUi := evs.foldl uiStep initMatchUi

/-- The save-match-button handler of initializeDreamsModule.  It checks only
that a dream is selected and that the trimmed modal input is non-empty — it
performs no authentication check — and then issues the updateDoc that sets
matchedRealityEvent to the trimmed text.  `userAuthed` records whether a user
is signed in; the handler never consults it.  `writeOk` is the outcome of the
updateDoc call (an unauthenticated write is rejected by the store and caught
here). -/
def saveMatch (userAuthed : Bool) (currentDreamIdForMatch : Option String)
    (inputText : String) (writeOk : Bool) (archived : List ArchDoc) :
    OpResult (List ArchDoc) Unit :=
  match currentDreamIdForMatch with
  | none => ⟨(), archived, [⟨"error", "No dream selected for matching."⟩], []⟩
  | some dreamId =>
      let matchedEventText := jsTrim inputText
      if matchedEventText = "" then
        ⟨(), archived, [⟨"info", "Please describe the matched reality event."⟩], []⟩
      else if writeOk then
        ⟨(), archived.map (fun d =>
              if d.id == dreamId then { d with matchedRealityEvent := matchedEventText } else d),
         [⟨"success", "Reality match saved!"⟩], [.updateDoc "archived_dreams"]⟩
      else
        ⟨(), archived, [⟨"error", "Failed to save reality match"⟩],
         [.updateDoc "archived_dreams"]⟩

/-! ## Theorems -/

/-! ### Search helper lemmas -/

theorem mem_sortByTsDesc {α : Type} (key : α → Option Int) {l : List α} {a : α} :
    a ∈ sortByTsDesc key l ↔ a ∈ l :=
  List.mem_insertionSort (tsDescBy key)

theorem pairwise_sortByTsDesc {α : Type} (key : α → Option Int) (l : List α) :
    List.Pairwise (fun a b => tsVal (key b) ≤ tsVal (key a)) (sortByTsDesc key l) :=
  List.sorted_insertionSort (tsDescBy key) l

theorem mem_searchDreamResults {term : String} {startMs : Int}
    {dreams : List DreamDoc} {r : DreamResult} :
    r ∈ searchDreamResults term startMs dreams ↔
      ∃ d, d ∈ dreams ∧ dreamMatches term startMs d = true ∧ r = toDreamResult d := by
  unfold searchDreamResults
  rw [mem_sortByTsDesc]
  simp only [List.mem_map, List.mem_filter]
  constructor
  · rintro ⟨d, ⟨hd, hm⟩, hr⟩
    exact ⟨d, hd, hm, hr.symm⟩
  · rintro ⟨d, hd, hm, hr⟩
    exact ⟨d, ⟨hd, hm⟩, hr.symm⟩

theorem mem_searchEventResults {term : String} {startMs : Int}
    {events : List EventDoc} {r : EventResult} :
    r ∈ searchEventResults term startMs events ↔
      ∃ e, e ∈ events ∧ eventMatches term startMs e = true ∧ r = toEventResult e := by
  unfold searchEventResults
  rw [mem_sortByTsDesc]
  simp only [List.mem_map, List.mem_filter]
  constructor
  · rintro ⟨e, ⟨he, hm⟩, hr⟩
    exact ⟨e, he, hm, hr.symm⟩
  · rintro ⟨e, he, hm, hr⟩
    exact ⟨e, ⟨he, hm⟩, hr.symm⟩

theorem dream_notMem_of_tsNone {term : String} {startMs : Int}
    {dreams : List DreamDoc} {d : DreamDoc} (hpos : 0 < startMs)
    (hts : d.timestamp = none) :
    toDreamResult d ∉ searchDreamResults term startMs dreams := by
  intro hmem
  rw [mem_searchDreamResults] at hmem
  obtain ⟨d', _, hm', heq⟩ := hmem
  have htseq : d.timestamp = d'.timestamp := by
    have := congrArg DreamResult.timestamp heq
    simpa [toDreamResult] using this
  simp only [dreamMatches, Bool.and_eq_true, decide_eq_true_eq] at hm'
  rw [← htseq, hts] at hm'
  obtain ⟨-, hle⟩ := hm'
  simp only [tsVal] at hle
  omega

theorem event_notMem_of_tsNone {term : String} {startMs : Int}
    {events : List EventDoc} {e : EventDoc} (hpos : 0 < startMs)
    (hts : e.timestamp = none) :
    toEventResult e ∉ searchEventResults term startMs events := by
  intro hmem
  rw [mem_searchEventResults] at hmem
  obtain ⟨e', _, hm', heq⟩ := hmem
  have htseq : e.timestamp = e'.timestamp := by
    have := congrArg EventResult.timestamp heq
    simpa [toEventResult] using this
  simp only [eventMatches, Bool.and_eq_true, decide_eq_true_eq] at hm'
  rw [← htseq, hts] at hm'
  obtain ⟨-, hle⟩ := hm'
  simp only [tsVal] at hle
  omega

/-! ### Claim theorems about the search -/

/-- C3: a search with a non-empty term `T` returns exactly the archived dreams
whose lowercased text or title contains the lowercased trimmed `T` and the
daily events whose lowercased text contains it, restricted to the selected time
window, each list sorted by timestamp descending; and a matching dream dated
40 days before now is excluded under the 30-day scope while included under
all-time. -/
theorem search_matches_window_sorted
    (rawInput : String) (scope : TimeScope) (clk : Clock)
    (dreams : List DreamDoc) (events : List EventDoc) (out : SearchOutput)
    (hout : (performSearch true rawInput scope clk dreams events).value = some out) :
    (∀ r, r ∈ out.dreamResults ↔ ∃ d, d ∈ dreams ∧
        (jsIncludes (jsToLower d.dreamText) (searchTermOf rawInput) = true ∨
         jsIncludes (jsToLower d.dreamTitle) (searchTermOf rawInput) = true) ∧
        scopeStartMs clk scope ≤ tsVal d.timestamp ∧ r = toDreamResult d) ∧
    List.Pairwise (fun a b => tsVal b.timestamp ≤ tsVal a.timestamp) out.dreamResults ∧
    (∀ r, r ∈ out.eventResults ↔ ∃ e, e ∈ events ∧
        jsIncludes (jsToLower e.eventText) (searchTermOf rawInput) = true ∧
        scopeStartMs clk scope ≤ tsVal e.timestamp ∧ r = toEventResult e) ∧
    List.Pairwise (fun a b => tsVal b.timestamp ≤ tsVal a.timestamp) out.eventResults ∧
    (∀ d, d ∈ dreams →
      jsIncludes (jsToLower d.dreamText) (searchTermOf rawInput) = true →
      d.timestamp = some (clk.nowMs - 40 * dayMs) →
      toDreamResult d ∉
        searchDreamResults (searchTermOf rawInput) (scopeStartMs clk .last30Days) dreams ∧
      (40 * dayMs ≤ clk.nowMs →
        toDreamResult d ∈
          searchDreamResults (searchTermOf rawInput) (scopeStartMs clk .allTime) dreams)) := by
  obtain ⟨now, ly⟩ := clk
  by_cases hterm : searchTermOf rawInput = ""
  · simp [performSearch, hterm] at hout
  · simp only [performSearch, hterm, Bool.not_true, Bool.false_eq_true, if_false,
      Option.some.injEq] at hout
    subst hout
    refine ⟨?_, ?_, ?_, ?_, ?_⟩
    · intro r
      rw [mem_searchDreamResults]
      constructor
      · rintro ⟨d, hd, hm, hr⟩
        simp only [dreamMatches, Bool.and_eq_true, Bool.or_eq_true, decide_eq_true_eq] at hm
        exact ⟨d, hd, hm.1, hm.2, hr⟩
      · rintro ⟨d, hd, hincl, hwin, hr⟩
        refine ⟨d, hd, ?_, hr⟩
        simp only [dreamMatches, Bool.and_eq_true, Bool.or_eq_true, decide_eq_true_eq]
        exact ⟨hincl, hwin⟩
    · exact pairwise_sortByTsDesc (fun r : DreamResult => r.timestamp) _
    · intro r
      rw [mem_searchEventResults]
      constructor
      · rintro ⟨e, he, hm, hr⟩
        simp only [eventMatches, Bool.and_eq_true, decide_eq_true_eq] at hm
        exact ⟨e, he, hm.1, hm.2, hr⟩
      · rintro ⟨e, he, hincl, hwin, hr⟩
        refine ⟨e, he, ?_, hr⟩
        simp only [eventMatches, Bool.and_eq_true, decide_eq_true_eq]
        exact ⟨hincl, hwin⟩
    · exact pairwise_sortByTsDesc (fun r : EventResult => r.timestamp) _
    · intro d hd hincl hts
      constructor
      · intro hmem
        rw [mem_searchDreamResults] at hmem
        obtain ⟨d', _, hm', heq⟩ := hmem
        have htseq : d.timestamp = d'.timestamp := by
          have := congrArg DreamResult.timestamp heq
          simpa [toDreamResult] using this
        simp only [dreamMatches, Bool.and_eq_true, decide_eq_true_eq] at hm'
        rw [← htseq, hts] at hm'
        have hle := hm'.2
        simp only [tsVal, scopeStartMs] at hle
        have hday : (0 : Int) < dayMs := by norm_num [dayMs]
        have hle2 : now - 30 * dayMs ≤ now - 40 * dayMs := hle
        omega
      · intro hge
        rw [mem_searchDreamResults]
        refine ⟨d, hd, ?_, rfl⟩
        simp only [dreamMatches, Bool.and_eq_true, Bool.or_eq_true, decide_eq_true_eq,
          scopeStartMs, hts, tsVal]
        refine ⟨Or.inl hincl, ?_⟩
        have hge2 : 40 * dayMs ≤ now := hge
        show (0 : Int) ≤ now - 40 * dayMs
        omega

/-- C3 witness: the theorem applied at a concrete one-dream, one-event search. -/
theorem search_matches_window_sorted_witness :
    (performSearch true "Cat" .last7Days ⟨100, 50⟩
        [⟨"d1", "the cat", "", some 99, ""⟩] [⟨"e1", "cats", some 98⟩]).value =
      some ⟨[⟨"d1", "Dream", "the cat", "", some 99, ""⟩],
            [⟨"e1", "Daily Event", "cats", some 98⟩]⟩ ∧
    List.Pairwise (fun a b => tsVal b.timestamp ≤ tsVal a.timestamp)
      (SearchOutput.mk [⟨"d1", "Dream", "the cat", "", some 99, ""⟩]
        [⟨"e1", "Daily Event", "cats", some 98⟩]).dreamResults :=
  ⟨by decide,
   (search_matches_window_sorted "Cat" .last7Days ⟨100, 50⟩
      [⟨"d1", "the cat", "", some 99, ""⟩] [⟨"e1", "cats", some 98⟩]
      ⟨[⟨"d1", "Dream", "the cat", "", some 99, ""⟩],
       [⟨"e1", "Daily Event", "cats", some 98⟩]⟩ (by decide)).2.1⟩

/-- C10: a dream or event with a missing timestamp is read as timestamp 0: for
any term it matches it is excluded from the results under every bounded scope
(whose cutoffs are positive for any realistic clock) and included under the
all-time scope, whose cutoff is the epoch itself. -/
theorem missing_timestamp_epoch_scoping
    (term : String) (clk : Clock) (dreams : List DreamDoc) (events : List EventDoc)
    (d : DreamDoc) (e : EventDoc)
    (hd : d ∈ dreams) (he : e ∈ events)
    (hdts : d.timestamp = none) (hets : e.timestamp = none)
    (hdm : jsIncludes (jsToLower d.dreamText) term = true ∨
           jsIncludes (jsToLower d.dreamTitle) term = true)
    (hem : jsIncludes (jsToLower e.eventText) term = true)
    (h30 : 30 * dayMs < clk.nowMs) (hyr : 0 < clk.lastYearStartMs) :
    (∀ scope, scope ≠ TimeScope.allTime →
      toDreamResult d ∉ searchDreamResults term (scopeStartMs clk scope) dreams ∧
      toEventResult e ∉ searchEventResults term (scopeStartMs clk scope) events) ∧
    toDreamResult d ∈ searchDreamResults term (scopeStartMs clk .allTime) dreams ∧
    toEventResult e ∈ searchEventResults term (scopeStartMs clk .allTime) events ∧
    scopeStartMs clk .allTime = 0 := by
  obtain ⟨now, ly⟩ := clk
  dsimp only at h30 hyr
  have hday : (0 : Int) < dayMs := by norm_num [dayMs]
  refine ⟨?_, ?_, ?_, rfl⟩
  · intro scope hscope
    have hpos : 0 < scopeStartMs ⟨now, ly⟩ scope := by
      cases scope with
      | last7Days => simp only [scopeStartMs]; omega
      | last30Days => simp only [scopeStartMs]; omega
      | lastYear => simpa [scopeStartMs] using hyr
      | allTime => exact absurd rfl hscope
    exact ⟨dream_notMem_of_tsNone hpos hdts, event_notMem_of_tsNone hpos hets⟩
  · rw [mem_searchDreamResults]
    refine ⟨d, hd, ?_, rfl⟩
    simp only [dreamMatches, Bool.and_eq_true, Bool.or_eq_true, decide_eq_true_eq,
      scopeStartMs, hdts, tsVal]
    exact ⟨hdm, le_refl 0⟩
  · rw [mem_searchEventResults]
    refine ⟨e, he, ?_, rfl⟩
    simp only [eventMatches, Bool.and_eq_true, decide_eq_true_eq,
      scopeStartMs, hets, tsVal]
    exact ⟨hem, le_refl 0⟩

/-! ### Match-selection UI invariant -/

/-- The invariant the checkbox handlers maintain: at most one checked box of
each kind, and a selection variable is set exactly when its box is checked. -/
def uiInv (s : MatchUi) : Prop :=
  s.checkedDreams.length ≤ 1 ∧ s.checkedEvents.length ≤ 1 ∧
  (s.selDream.isSome = true ↔ s.checkedDreams.length = 1) ∧
  (s.selEvent.isSome = true ↔ s.checkedEvents.length = 1)

theorem uiInv_init : uiInv initMatchUi := by
  simp [uiInv, initMatchUi]

theorem uiInv_step (s : MatchUi) (ev : UiEvent) (h : uiInv s) : uiInv (uiStep s ev) := by
  obtain ⟨h1, h2, h3, h4⟩ := h
  cases ev with
  | dreamToggle d b => cases b <;> simp [uiStep, uiInv, h2, h4]
  | eventToggle e b => cases b <;> simp [uiStep, uiInv, h1, h3]
  | newSearch => simp [uiStep, uiInv, initMatchUi]

theorem uiInv_run (evs : List UiEvent) : uiInv (uiRun evs) := by
  suffices h : ∀ s, uiInv s → uiInv (evs.foldl uiStep s) from h initMatchUi uiInv_init
  induction evs with
  | nil => exact fun s hs => hs
  | cons ev t ih => exact fun s hs => ih (uiStep s ev) (uiInv_step s ev hs)

/-- C6: after any sequence of interactions following a search, at most one
dream checkbox and at most one event checkbox are checked; the match action
proceeds exactly when one dream and one event are simultaneously selected; and
checking a dream (or event) leaves exactly that one box checked, deselecting
any previously checked one. -/
theorem match_selection_exclusive (evs : List UiEvent) :
    (uiRun evs).checkedDreams.length ≤ 1 ∧
    (uiRun evs).checkedEvents.length ≤ 1 ∧
    (matchClickProceeds (uiRun evs) = true ↔
      ((uiRun evs).checkedDreams.length = 1 ∧ (uiRun evs).checkedEvents.length = 1)) ∧
    (∀ d : DreamSel, (uiStep (uiRun evs) (.dreamToggle d true)).checkedDreams = [d.id] ∧
      (uiStep (uiRun evs) (.dreamToggle d true)).selDream = some d) ∧
    (∀ e : EventSel, (uiStep (uiRun evs) (.eventToggle e true)).checkedEvents = [e.id] ∧
      (uiStep (uiRun evs) (.eventToggle e true)).selEvent = some e) := by
  obtain ⟨h1, h2, h3, h4⟩ := uiInv_run evs
  refine ⟨h1, h2, ?_, ?_, ?_⟩
  · simp only [matchClickProceeds, Bool.and_eq_true]
    rw [h3, h4]
  · intro d
    exact ⟨rfl, rfl⟩
  · intro e
    exact ⟨rfl, rfl⟩

/-- C6 witness: the theorem applied to a concrete interaction sequence in which
a second dream is checked after a first. -/
theorem match_selection_exclusive_witness :
    (uiRun [.dreamToggle ⟨"d1", "c1", "t1"⟩ true, .dreamToggle ⟨"d2", "c2", "t2"⟩ true,
            .eventToggle ⟨"e1", "x"⟩ true]).checkedDreams.length ≤ 1 ∧
    (matchClickProceeds (uiRun [.dreamToggle ⟨"d1", "c1", "t1"⟩ true,
        .dreamToggle ⟨"d2", "c2", "t2"⟩ true, .eventToggle ⟨"e1", "x"⟩ true]) = true ↔
      ((uiRun [.dreamToggle ⟨"d1", "c1", "t1"⟩ true, .dreamToggle ⟨"d2", "c2", "t2"⟩ true,
          .eventToggle ⟨"e1", "x"⟩ true]).checkedDreams.length = 1 ∧
       (uiRun [.dreamToggle ⟨"d1", "c1", "t1"⟩ true, .dreamToggle ⟨"d2", "c2", "t2"⟩ true,
          .eventToggle ⟨"e1", "x"⟩ true]).checkedEvents.length = 1)) :=
  ⟨(match_selection_exclusive _).1, (match_selection_exclusive _).2.2.1⟩

/-! ### Daily-event retrieval cap -/

/-- C7 counterexample: the search-tab retrieval of daily events carries no row
limit: with eleven stored events all matching the term, performSearch returns
eleven event results, so not every retrieval of DailyEvent records is capped at
the ten most recent. -/
theorem search_event_retrieval_uncapped :
    ((performSearch true "x" .allTime ⟨1000, 0⟩ []
        [⟨"e1", "x1", some 1⟩, ⟨"e2", "x2", some 2⟩, ⟨"e3", "x3", some 3⟩,
         ⟨"e4", "x4", some 4⟩, ⟨"e5", "x5", some 5⟩, ⟨"e6", "x6", some 6⟩,
         ⟨"e7", "x7", some 7⟩, ⟨"e8", "x8", some 8⟩, ⟨"e9", "x9", some 9⟩,
         ⟨"e10", "x10", some 10⟩, ⟨"e11", "x11", some 11⟩]).value.elim 0
       (fun o => o.eventResults.length)) = 11 ∧ ¬(11 ≤ 10) := by
  decide

/-- C7 amended: the daily-events list retrieval (loadDailyEvents) returns at
most the 10 most recent events ordered by timestamp descending, while the
search-tab retrieval of daily events is unbounded: it fetches every daily event
and applies only the term and time-window filters. -/
theorem loadDailyEvents_cap_and_order (events : List EventDoc) :
    (loadDailyEventsQuery events).length ≤ 10 ∧
    List.Pairwise (fun a b => tsVal b.timestamp ≤ tsVal a.timestamp)
      (loadDailyEventsQuery events) ∧
    (∀ x ∈ loadDailyEventsQuery events, ∀ y ∈ events, y ∉ loadDailyEventsQuery events →
      tsVal y.timestamp ≤ tsVal x.timestamp) ∧
    (∀ term startMs evs, (searchEventResults term startMs evs).length
        = (evs.filter (eventMatches term startMs)).length) := by
  refine ⟨?_, ?_, ?_, ?_⟩
  · rw [loadDailyEventsQuery, List.length_take]
    exact min_le_left _ _
  · exact List.Pairwise.sublist (List.take_sublist 10 _)
      (pairwise_sortByTsDesc (fun e : EventDoc => e.timestamp) events)
  · intro x hx y hy hyn
    have hys : y ∈ sortByTsDesc (fun e : EventDoc => e.timestamp) events :=
      (mem_sortByTsDesc (fun e : EventDoc => e.timestamp)).mpr hy
    rw [← List.take_append_drop 10 (sortByTsDesc (fun e : EventDoc => e.timestamp) events),
      List.mem_append] at hys
    have hyd : y ∈ (sortByTsDesc (fun e : EventDoc => e.timestamp) events).drop 10 := by
      cases hys with
      | inl h => exact absurd h hyn
      | inr h => exact h
    exact List.Sorted.rel_of_mem_take_of_mem_drop
      (List.sorted_insertionSort (tsDescBy (fun e : EventDoc => e.timestamp)) events) hx hyd
  · intro term startMs evs
    simp [searchEventResults, sortByTsDesc, List.length_insertionSort, List.length_map]

/-- C7 witness: the amended theorem applied at a concrete twelve-event store,
alongside the evaluated cap. -/
theorem loadDailyEvents_cap_and_order_witness :
    (loadDailyEventsQuery
        [⟨"e1", "a", some 1⟩, ⟨"e2", "b", some 2⟩, ⟨"e3", "c", some 3⟩,
         ⟨"e4", "d", some 4⟩, ⟨"e5", "e", some 5⟩, ⟨"e6", "f", some 6⟩,
         ⟨"e7", "g", some 7⟩, ⟨"e8", "h", some 8⟩, ⟨"e9", "i", some 9⟩,
         ⟨"e10", "j", some 10⟩, ⟨"e11", "k", some 11⟩, ⟨"e12", "l", some 12⟩]).length ≤ 10 ∧
    (loadDailyEventsQuery
        [⟨"e1", "a", some 1⟩, ⟨"e2", "b", some 2⟩, ⟨"e3", "c", some 3⟩,
         ⟨"e4", "d", some 4⟩, ⟨"e5", "e", some 5⟩, ⟨"e6", "f", some 6⟩,
         ⟨"e7", "g", some 7⟩, ⟨"e8", "h", some 8⟩, ⟨"e9", "i", some 9⟩,
         ⟨"e10", "j", some 10⟩, ⟨"e11", "k", some 11⟩, ⟨"e12", "l", some 12⟩]).length = 10 :=
  ⟨(loadDailyEvents_cap_and_order _).1, by decide⟩

/-! ### Authentication guards -/

/-- C8 counterexample: the save-match handler performs no authentication check:
with no user signed in but a dream selected and a non-empty input, it still
issues the updateDoc store call (which the store then rejects), so not every
data operation refuses unauthenticated use without store or network calls. -/
theorem saveMatch_unauth_issues_write :
    (saveMatch false (some "d1") " met my friend " false
        [⟨"d1", "text", "json", "t", ""⟩]).calls = [StoreCall.updateDoc "archived_dreams"] ∧
    (saveMatch false (some "d1") " met my friend " false
        [⟨"d1", "text", "json", "t", ""⟩]).calls ≠ [] := by
  decide

/-- C8 amended: every modeled data operation except the save-match update —
draft save, update and delete, archived-dream save and delete, the
analyze-and-archive flow, the analysis call, search, daily-event logging and
the detailed statistics load — refuses unauthenticated use: it leaves its data
untouched, issues no store or network call, and shows a user-facing notice.
The save-match handler alone omits the check and issues the store write. -/
theorem unauth_operations_refused
    (addOk updOk delOk : Bool) (nid did tx tt : String) (pre : Bool) (st : Store)
    (rawInput : String) (scope : TimeScope) (clk : Clock)
    (dreams : List DreamDoc) (events : List EventDoc)
    (ts : Option Int) (etx : String) (evs : List EventDoc)
    (sdocs : List StatsDreamDoc) (transport : Option ApiResponse)
    (analysisResult : Option String) :
    ((saveDraftDream false addOk nid tx tt pre st).state = st ∧
     (saveDraftDream false addOk nid tx tt pre st).calls = [] ∧
     (saveDraftDream false addOk nid tx tt pre st).msgs ≠ []) ∧
    ((updateDraftDream false updOk did tx tt pre st).state = st ∧
     (updateDraftDream false updOk did tx tt pre st).calls = [] ∧
     (updateDraftDream false updOk did tx tt pre st).msgs ≠ []) ∧
    ((deleteDraftDream false delOk did st).state = st ∧
     (deleteDraftDream false delOk did st).calls = [] ∧
     (deleteDraftDream false delOk did st).msgs ≠ []) ∧
    ((saveAnalyzedDream false addOk nid tx tt tt st).state = st ∧
     (saveAnalyzedDream false addOk nid tx tt tt st).calls = [] ∧
     (saveAnalyzedDream false addOk nid tx tt tt st).msgs ≠ []) ∧
    ((analyzeAndArchiveDream false analysisResult addOk delOk nid did tx tt st).state = st ∧
     (analyzeAndArchiveDream false analysisResult addOk delOk nid did tx tt st).calls = [] ∧
     (analyzeAndArchiveDream false analysisResult addOk delOk nid did tx tt st).msgs ≠ []) ∧
    ((deleteArchivedDream false delOk did st).state = st ∧
     (deleteArchivedDream false delOk did st).calls = [] ∧
     (deleteArchivedDream false delOk did st).msgs ≠ []) ∧
    ((performDreamAnalysis false transport).value = none ∧
     (performDreamAnalysis false transport).calls = [] ∧
     (performDreamAnalysis false transport).msgs ≠ []) ∧
    ((performSearch false rawInput scope clk dreams events).value = none ∧
     (performSearch false rawInput scope clk dreams events).calls = [] ∧
     (performSearch false rawInput scope clk dreams events).msgs ≠ []) ∧
    ((saveDailyEvent false addOk nid ts etx evs).state = evs ∧
     (saveDailyEvent false addOk nid ts etx evs).calls = [] ∧
     (saveDailyEvent false addOk nid ts etx evs).msgs ≠ []) ∧
    ((loadDetailedDreamStats false sdocs).value.1 = none ∧
     (loadDetailedDreamStats false sdocs).calls = [] ∧
     (loadDetailedDreamStats false sdocs).msgs ≠ []) := by
  refine ⟨?_, ?_, ?_, ?_, ?_, ?_, ?_, ?_, ?_, ?_⟩
  · simp [saveDraftDream]
  · simp [updateDraftDream]
  · simp [deleteDraftDream]
  · simp [saveAnalyzedDream]
  · simp [analyzeAndArchiveDream]
  · simp [deleteArchivedDream]
  · simp [performDreamAnalysis]
  · by_cases h : searchTermOf rawInput = "" <;> simp [performSearch, h]
  · simp [saveDailyEvent]
  · simp [loadDetailedDreamStats]

/-- C8 witness: the amended theorem applied at concrete arguments, extracting
the unauthenticated-search refusal. -/
theorem unauth_operations_refused_witness :
    (performSearch false "cat" .allTime ⟨100, 0⟩ [] []).value = none ∧
    (performSearch false "cat" .allTime ⟨100, 0⟩ [] []).calls = [] :=
  have h := unauth_operations_refused true true true "n" "d" "x" "t" true ⟨[], []⟩
    "cat" .allTime ⟨100, 0⟩ [] [] none "e" [] [] none none
  ⟨h.2.2.2.2.2.2.2.1.1, h.2.2.2.2.2.2.2.1.2.1⟩

/-! ### The save-match write -/

/-- Auxiliary: find? by id commutes with an id-preserving map. -/
theorem find_map_id_preserved (l : List ArchDoc) (f : ArchDoc → ArchDoc)
    (hid : ∀ d, (f d).id = d.id) (i : String) :
    (l.map f).find? (fun x => x.id == i) = (l.find? (fun x => x.id == i)).map f := by
  induction l with
  | nil => rfl
  | cons a t ih =>
    by_cases h : (a.id == i) = true
    · have hfa : ((f a).id == i) = true := by rw [hid]; exact h
      simp [List.find?_cons, hfa, h]
    · have hfa : ((f a).id == i) = false := by rw [hid]; simpa using h
      have h' : (a.id == i) = false := by simpa using h
      simp [List.find?_cons, hfa, h', ih]

/-- C9: the save-match handler never stores an empty match: when no dream is
selected or the trimmed input is empty it changes nothing and issues no call;
every dream left unmatched after the call was already stored in exactly that
state; and a dream whose stored matchedRealityEvent is non-empty still has a
non-empty one afterwards — the workflow never moves an archived dream from
matched back to unmatched. -/
theorem saveMatch_never_unmatches
    (userAuthed : Bool) (dreamSel : Option String) (inputText : String)
    (writeOk : Bool) (archived : List ArchDoc) :
    ((dreamSel = none ∨ jsTrim inputText = "") →
      (saveMatch userAuthed dreamSel inputText writeOk archived).state = archived ∧
      (saveMatch userAuthed dreamSel inputText writeOk archived).calls = []) ∧
    (∀ d' ∈ (saveMatch userAuthed dreamSel inputText writeOk archived).state,
      d'.matchedRealityEvent = "" → d' ∈ archived) ∧
    (∀ i d d', archived.find? (fun x => x.id == i) = some d →
      (saveMatch userAuthed dreamSel inputText writeOk archived).state.find?
        (fun x => x.id == i) = some d' →
      d.matchedRealityEvent ≠ "" → d'.matchedRealityEvent ≠ "") := by
  cases dreamSel with
  | none =>
    refine ⟨fun _ => ⟨rfl, rfl⟩, fun d' hd' _ => hd', ?_⟩
    intro i d d' h1 h2 h3
    rw [show (saveMatch userAuthed none inputText writeOk archived).state = archived from rfl,
      h1] at h2
    cases h2
    exact h3
  | some dreamId =>
    by_cases htrim : jsTrim inputText = ""
    · have hstate : (saveMatch userAuthed (some dreamId) inputText writeOk archived)
          = ⟨(), archived, [⟨"info", "Please describe the matched reality event."⟩], []⟩ := by
        simp [saveMatch, htrim]
      refine ⟨fun _ => ⟨by rw [hstate], by rw [hstate]⟩, ?_, ?_⟩
      · intro d' hd' _
        rw [hstate] at hd'
        exact hd'
      · intro i d d' h1 h2 h3
        rw [hstate] at h2
        rw [h1] at h2
        cases h2
        exact h3
    · cases writeOk with
      | false =>
        have hstate : (saveMatch userAuthed (some dreamId) inputText false archived).state
            = archived := by
          simp [saveMatch, htrim]
        refine ⟨fun h => ?_, ?_, ?_⟩
        · rcases h with h | h
          · cases h
          · exact absurd h htrim
        · intro d' hd' _
          rw [hstate] at hd'
          exact hd'
        · intro i d d' h1 h2 h3
          rw [hstate, h1] at h2
          cases h2
          exact h3
      | true =>
        have hstate : (saveMatch userAuthed (some dreamId) inputText true archived).state
            = archived.map (fun d =>
                if d.id == dreamId then { d with matchedRealityEvent := jsTrim inputText }
                else d) := by
          simp [saveMatch, htrim]
        refine ⟨fun h => ?_, ?_, ?_⟩
        · rcases h with h | h
          · cases h
          · exact absurd h htrim
        · intro d' hd' hempty
          rw [hstate] at hd'
          obtain ⟨d, hd, hfd⟩ := List.mem_map.mp hd'
          by_cases hif : (d.id == dreamId) = true
          · rw [if_pos hif] at hfd
            rw [← hfd] at hempty
            exact absurd hempty htrim
          · rw [if_neg hif] at hfd
            rw [← hfd]
            exact hd
        · intro i d d' h1 h2 h3
          rw [hstate, find_map_id_preserved _ _ ?_ i, h1] at h2
          · cases h2
            by_cases hif : (d.id == dreamId) = true
            · simp only [if_pos hif]
              exact htrim
            · simp only [if_neg hif]
              exact h3
          · intro x
            by_cases hx : (x.id == dreamId) = true
            · rw [if_pos hx]
            · rw [if_neg hx]

/-- C9 witness: the theorem applied at a whitespace-only input over a store
holding one matched dream: nothing changes and no call is made. -/
theorem saveMatch_never_unmatches_witness :
    (saveMatch true (some "d1") "   " true
        [⟨"d1", "x", "j", "t", "old match"⟩]).state = [⟨"d1", "x", "j", "t", "old match"⟩] ∧
    (saveMatch true (some "d1") "   " true
        [⟨"d1", "x", "j", "t", "old match"⟩]).calls = [] :=
  (saveMatch_never_unmatches true (some "d1") "   " true
    [⟨"d1", "x", "j", "t", "old match"⟩]).1 (Or.inr (by decide))

/-- C10 witness: the theorem applied to a concrete timestampless dream and
event matching the term cat under a clock 40 days past the epoch. -/
theorem missing_timestamp_epoch_scoping_witness :
    toDreamResult ⟨"d1", "a cat", "", none, ""⟩ ∈
      searchDreamResults "cat" (scopeStartMs ⟨40 * dayMs, 5⟩ .allTime)
        [⟨"d1", "a cat", "", none, ""⟩] ∧
    toDreamResult ⟨"d1", "a cat", "", none, ""⟩ ∉
      searchDreamResults "cat" (scopeStartMs ⟨40 * dayMs, 5⟩ .last30Days)
        [⟨"d1", "a cat", "", none, ""⟩] ∧
    toEventResult ⟨"e1", "cats", none⟩ ∉
      searchEventResults "cat" (scopeStartMs ⟨40 * dayMs, 5⟩ .last7Days)
        [⟨"e1", "cats", none⟩] :=
  have h := missing_timestamp_epoch_scoping "cat" ⟨40 * dayMs, 5⟩
    [⟨"d1", "a cat", "", none, ""⟩] [⟨"e1", "cats", none⟩]
    ⟨"d1", "a cat", "", none, ""⟩ ⟨"e1", "cats", none⟩
    (by decide) (by decide) rfl rfl (Or.inl (by decide)) (by decide)
    (by decide) (by decide)
  ⟨h.2.1, (h.1 .last30Days (by decide)).1, (h.1 .last7Days (by decide)).2⟩

/-- C1: the analyze-and-archive flow at an input where the analysis succeeds
but the archive write fails.  saveAnalyzedDream catches the failed write, so
analyzeAndArchiveDream still deletes the draft and still shows the final
success message: the run below ends with the store empty on both sides (the
dream text is lost), with the success message shown alongside the archive-write
error.  This contradicts the claim that success is reported only if the
analysis call, the archive write and the draft delete all succeed. -/
theorem analyzeAndArchive_success_despite_failed_archive :
    (analyzeAndArchiveDream true (some "analysis-json") false true "a1" "d1"
        "I flew over the sea" "t1" (Store.mk [⟨"d1", "I flew over the sea", "t1", false⟩] [])).state
      = Store.mk [] [] ∧
    Msg.mk "success" "Dream analyzed and moved to Archive!"
      ∈ (analyzeAndArchiveDream true (some "analysis-json") false true "a1" "d1"
          "I flew over the sea" "t1" (Store.mk [⟨"d1", "I flew over the sea", "t1", false⟩] [])).msgs ∧
    Msg.mk "error" "Failed to save analyzed dream"
      ∈ (analyzeAndArchiveDream true (some "analysis-json") false true "a1" "d1"
          "I flew over the sea" "t1" (Store.mk [⟨"d1", "I flew over the sea", "t1", false⟩] [])).msgs := by
  decide

/-- C2 counterexample: the claim says performDreamAnalysis returns null on any
non-2xx HTTP result, but the code never inspects the status: a status-500
response whose JSON body still carries the candidate path has its text
returned. -/
theorem performDreamAnalysis_ignores_http_status :
    (performDreamAnalysis true (some ⟨500, some (some "raw-json")⟩)).value = some "raw-json" ∧
    is2xx 500 = false := by
  decide

/-- C2 amended: performDreamAnalysis returns the raw string exactly when the
caller is authenticated and the transport delivered a JSON body containing the
candidates[0].content.parts[0].text path — regardless of the HTTP status — and
it surfaces a user-facing error message exactly when it returns null (covering
transport failures, unreadable bodies and missing-candidate responses, which is
how typical non-2xx results are rejected). -/
theorem performDreamAnalysis_characterization (auth : Bool)
    (transport : Option ApiResponse) (t : String) :
    ((performDreamAnalysis auth transport).value = some t ↔
      auth = true ∧ transport.bind ApiResponse.parsed = some (some t)) ∧
    hasError (performDreamAnalysis auth transport).msgs
      = ((performDreamAnalysis auth transport).value).isNone := by
  cases auth with
  | false => simp [performDreamAnalysis, hasError]
  | true =>
    cases transport with
    | none => simp [performDreamAnalysis, hasError]
    | some resp =>
      rcases resp with ⟨status, parsed⟩
      cases parsed with
      | none => simp [performDreamAnalysis, hasError]
      | some p =>
        cases p with
        | none => simp [performDreamAnalysis, hasError]
        | some s => simp [performDreamAnalysis, hasError, eq_comm]

/-- C2 witness: the characterization applied at a concrete successful call. -/
theorem performDreamAnalysis_characterization_witness :
    ((performDreamAnalysis true (some ⟨200, some (some "raw")⟩)).value = some "raw" ↔
      true = true ∧
        (some (⟨200, some (some "raw")⟩ : ApiResponse)).bind ApiResponse.parsed
          = some (some "raw")) ∧
    hasError (performDreamAnalysis true (some ⟨200, some (some "raw")⟩)).msgs
      = ((performDreamAnalysis true (some ⟨200, some (some "raw")⟩)).value).isNone :=
  performDreamAnalysis_characterization true (some ⟨200, some (some "raw")⟩) "raw"

/-! ### Presence counts (C5) -/

/-- The presence test as the claim words it: the dream's analysisText parses
and the field's value (absent read as empty) is non-empty after trimming. -/
def claimPresence (d : StatsDreamDoc) (k : String) : Bool :=
  match d.analysis with
  | some a => !(jsTrim ((a.lookup k).getD "") == "")
  | none => false

theorem fieldCounted_eq_trim (a : List (String × String)) (k : String) :
    fieldCounted a k = !(jsTrim ((a.lookup k).getD "") == "") := by
  unfold fieldCounted
  cases h : a.lookup k with
  | none => decide
  | some v =>
    by_cases hv : v = ""
    · subst hv; decide
    · have h1 : (v == "") = false := by simpa using hv
      simp [h1]

theorem lookup_bump_map (counts : List (String × Nat)) (a : List (String × String))
    (k : String) :
    (counts.map (fun p => if fieldCounted a p.1 then (p.1, p.2 + 1) else p)).lookup k
      = (counts.lookup k).map (fun n => if fieldCounted a k then n + 1 else n) := by
  induction counts with
  | nil => rfl
  | cons p t ih =>
    rcases p with ⟨kh, v⟩
    simp only [List.map_cons]
    by_cases hf : fieldCounted a kh = true
    · rw [if_pos hf]
      by_cases hk : k = kh
      · subst hk
        simp [List.lookup, hf]
      · have hbeq : (k == kh) = false := by simpa using hk
        simp [List.lookup, hbeq, ih]
    · rw [Bool.not_eq_true] at hf
      rw [if_neg (by simp [hf])]
      by_cases hk : k = kh
      · subst hk
        simp [List.lookup, hf]
      · have hbeq : (k == kh) = false := by simpa using hk
        simp [List.lookup, hbeq, ih]

theorem statsStep_lookup (counts : List (String × Nat)) (d : StatsDreamDoc) (k : String) :
    (statsStep counts d).lookup k
      = (counts.lookup k).map (fun n => if claimPresence d k then n + 1 else n) := by
  cases hd : d.analysis with
  | none =>
    simp only [statsStep, hd, claimPresence]
    cases counts.lookup k <;> simp
  | some a =>
    simp only [statsStep, hd]
    rw [lookup_bump_map]
    simp only [claimPresence, hd, fieldCounted_eq_trim]

theorem foldl_statsStep_lookup (docs : List StatsDreamDoc) (k : String) :
    ∀ (counts : List (String × Nat)) (n : Nat), counts.lookup k = some n →
      (docs.foldl statsStep counts).lookup k
        = some (n + (docs.filter (fun d => claimPresence d k)).length) := by
  induction docs with
  | nil => intro counts n h; simpa using h
  | cons d t ih =>
    intro counts n h
    rw [List.foldl_cons]
    by_cases hp : claimPresence d k = true
    · have h1 : (statsStep counts d).lookup k = some (n + 1) := by
        rw [statsStep_lookup, h, Option.map_some']
        rw [if_pos hp]
      rw [ih _ _ h1]
      have hfc : (t.filter (fun d => claimPresence d k)).length + 1
          = ((d :: t).filter (fun x => claimPresence x k)).length := by
        simp [List.filter_cons, hp]
      rw [← hfc]
      exact congrArg some (by omega)
    · rw [Bool.not_eq_true] at hp
      have h1 : (statsStep counts d).lookup k = some n := by
        rw [statsStep_lookup, h, Option.map_some']
        rw [if_neg (by simp [hp])]
      rw [ih _ _ h1]
      have hfc : (t.filter (fun d => claimPresence d k)).length
          = ((d :: t).filter (fun x => claimPresence x k)).length := by
        simp [List.filter_cons, hp]
      rw [← hfc]

theorem initCounts_lookup (k : String) (hk : k ∈ categoryKeys) :
    initCounts.lookup k = some 0 := by
  fin_cases hk <;> rfl

/-- C5: for each of the twelve analysis fields, the presence count computed by
loadDetailedDreamStats is exactly the number of dreams whose analysisText
parses and whose field value is non-empty after trimming; dreams with
unparsable analysisText contribute to no count and produce exactly one console
warning each; and the authed aggregation always produces its counts with no
error surfaced (nothing is thrown). -/
theorem detailed_stats_presence_counts (docs : List StatsDreamDoc) (k : String)
    (hk : k ∈ categoryKeys) :
    (loadDetailedDreamStats true docs).value.1 = some (docs.foldl statsStep initCounts) ∧
    (docs.foldl statsStep initCounts).lookup k
      = some ((docs.filter (fun d => claimPresence d k)).length) ∧
    (loadDetailedDreamStats true docs).value.2.length
      = (docs.filter (fun d => d.analysis.isNone)).length ∧
    (loadDetailedDreamStats true docs).msgs = [] := by
  refine ⟨rfl, ?_, ?_, rfl⟩
  · simpa using foldl_statsStep_lookup docs k initCounts 0 (initCounts_lookup k hk)
  · simp [loadDetailedDreamStats]

/-- C5 witness: the theorem applied to a store with one parsable dream (with a
whitespace-padded location and a whitespace-only actionsPerformed) and one
unparsable dream. -/
theorem detailed_stats_presence_counts_witness :
    "location" ∈ categoryKeys ∧
    (([⟨"a", some [("location", " den "), ("actionsPerformed", " ")]⟩,
       ⟨"b", none⟩] : List StatsDreamDoc).foldl statsStep initCounts).lookup "location"
      = some ((([⟨"a", some [("location", " den "), ("actionsPerformed", " ")]⟩,
          ⟨"b", none⟩] : List StatsDreamDoc).filter
            (fun d => claimPresence d "location")).length) ∧
    (([⟨"a", some [("location", " den "), ("actionsPerformed", " ")]⟩,
       ⟨"b", none⟩] : List StatsDreamDoc).filter
        (fun d => claimPresence d "location")).length = 1 :=
  ⟨by decide,
   (detailed_stats_presence_counts
      [⟨"a", some [("location", " den "), ("actionsPerformed", " ")]⟩, ⟨"b", none⟩]
      "location" (by decide)).2.1,
   by decide⟩

/-! ### Top terms (C4) -/

/-- A well-formed displayed token: length above one, only lowercase letters and
digits, and not a stop word. -/
def goodToken (t : String) : Bool :=
  decide (t.length > 1) && t.data.all isTokenChar && !stopWords.contains t

theorem tokenRuns_chars : ∀ (cs cur : List Char),
    (∀ c ∈ cur, isTokenChar c = true) →
    ∀ run ∈ tokenRuns cs cur, ∀ c ∈ run, isTokenChar c = true := by
  intro cs
  induction cs with
  | nil =>
    intro cur hcur run hrun c hc
    unfold tokenRuns at hrun
    by_cases h : cur.isEmpty = true
    · rw [if_pos h] at hrun
      cases hrun
    · rw [if_neg h] at hrun
      rcases List.mem_singleton.mp hrun with rfl
      exact hcur c (List.mem_reverse.mp hc)
  | cons a rest ih =>
    intro cur hcur run hrun c hc
    unfold tokenRuns at hrun
    by_cases ha : isTokenChar a = true
    · rw [if_pos ha] at hrun
      refine ih (a :: cur) ?_ run hrun c hc
      intro x hx
      rcases List.mem_cons.mp hx with rfl | hx'
      · exact ha
      · exact hcur x hx'
    · rw [if_neg ha] at hrun
      by_cases hemp : cur.isEmpty = true
      · rw [if_pos hemp] at hrun
        exact ih [] (fun x hx => absurd hx (List.not_mem_nil x)) run hrun c hc
      · rw [if_neg hemp] at hrun
        rcases List.mem_cons.mp hrun with rfl | hrun'
        · exact hcur c (List.mem_reverse.mp hc)
        · exact ih [] (fun x hx => absurd hx (List.not_mem_nil x)) run hrun' c hc

theorem tokenizeAndClean_good (text : String) :
    ∀ w ∈ tokenizeAndClean text, goodToken w = true := by
  intro w hw
  unfold tokenizeAndClean at hw
  rw [List.mem_filter] at hw
  obtain ⟨hmem, hfilt⟩ := hw
  rw [List.mem_map] at hmem
  obtain ⟨run, hrun, hwrun⟩ := hmem
  have hchars : ∀ c ∈ run, isTokenChar c = true :=
    tokenRuns_chars (jsToLower text).toList []
      (fun c hc => absurd hc (List.not_mem_nil c)) run hrun
  subst hwrun
  simp only [goodToken, Bool.and_eq_true] at hfilt ⊢
  refine ⟨⟨hfilt.1, ?_⟩, hfilt.2⟩
  rw [List.all_eq_true]
  intro c hc
  exact hchars c hc

theorem tokenizeField_good (v : Option String) :
    ∀ w ∈ tokenizeField v, goodToken w = true := by
  cases v with
  | none => intro w hw; cases hw
  | some s => exact tokenizeAndClean_good s

theorem bumpTerm_keys {m : List (String × Nat)} {t : String}
    (hm : ∀ p ∈ m, goodToken p.1 = true) (ht : goodToken t = true) :
    ∀ p ∈ bumpTerm m t, goodToken p.1 = true := by
  intro p hp
  unfold bumpTerm at hp
  by_cases h : m.any (fun p => p.1 == t) = true
  · rw [if_pos h] at hp
    obtain ⟨q, hq, hpq⟩ := List.mem_map.mp hp
    have hkey : p.1 = q.1 := by
      rw [← hpq]
      by_cases hq1 : (q.1 == t) = true
      · rw [if_pos hq1]
      · rw [if_neg hq1]
    rw [hkey]
    exact hm q hq
  · rw [if_neg h] at hp
    rcases List.mem_append.mp hp with h1 | h1
    · exact hm p h1
    · rcases List.mem_singleton.mp h1 with rfl
      exact ht

theorem updateFrequencyMap_keys : ∀ (terms : List String) (m : List (String × Nat)),
    (∀ p ∈ m, goodToken p.1 = true) → (∀ t ∈ terms, goodToken t = true) →
    ∀ p ∈ updateFrequencyMap m terms, goodToken p.1 = true := by
  intro terms
  induction terms with
  | nil => intro m hm _ p hp; exact hm p hp
  | cons t ts ih =>
    intro m hm hts p hp
    exact ih (bumpTerm m t) (bumpTerm_keys hm (hts t (List.mem_cons_self t ts)))
      (fun x hx => hts x (List.mem_cons_of_mem t hx)) p
      (by simpa [updateFrequencyMap, List.foldl_cons] using hp)

theorem buildFieldFreq_keys (docs : List StatsDreamDoc) (field : String) :
    ∀ p ∈ buildFieldFreq docs field, goodToken p.1 = true := by
  suffices h : ∀ (m : List (String × Nat)), (∀ p ∈ m, goodToken p.1 = true) →
      ∀ p ∈ docs.foldl (fun m d => match d.analysis with
        | some a => updateFrequencyMap m (tokenizeField (a.lookup field))
        | none => m) m, goodToken p.1 = true by
    intro p hp
    exact h [] (fun q hq => absurd hq (List.not_mem_nil q)) p hp
  induction docs with
  | nil => intro m hm p hp; exact hm p (by simpa using hp)
  | cons d t ih =>
    intro m hm p hp
    rw [List.foldl_cons] at hp
    cases hd : d.analysis with
    | some a =>
      simp only [hd] at hp
      exact ih _ (updateFrequencyMap_keys _ _ hm (tokenizeField_good _)) p hp
    | none =>
      simp only [hd] at hp
      exact ih m hm p hp

theorem mem_insertByCountDesc {x a : String × Nat} : ∀ {l : List (String × Nat)},
    x ∈ insertByCountDesc a l ↔ x = a ∨ x ∈ l := by
  intro l
  induction l with
  | nil => simp [insertByCountDesc]
  | cons b t ih =>
    unfold insertByCountDesc
    by_cases h : a.2 < b.2
    · rw [if_pos h]
      simp only [List.mem_cons, ih]
      tauto
    · rw [if_neg h]
      simp only [List.mem_cons]

theorem mem_sortByCountDesc {x : String × Nat} : ∀ {l : List (String × Nat)},
    x ∈ sortByCountDesc l ↔ x ∈ l := by
  intro l
  induction l with
  | nil => simp [sortByCountDesc]
  | cons a t ih =>
    show x ∈ insertByCountDesc a (sortByCountDesc t) ↔ _
    rw [mem_insertByCountDesc, ih, List.mem_cons]

theorem pairwise_insertByCountDesc (a : String × Nat) : ∀ {l : List (String × Nat)},
    List.Pairwise (fun x y => y.2 ≤ x.2) l →
    List.Pairwise (fun x y => y.2 ≤ x.2) (insertByCountDesc a l) := by
  intro l
  induction l with
  | nil => intro _; exact List.pairwise_singleton _ a
  | cons b t ih =>
    intro h
    rw [List.pairwise_cons] at h
    obtain ⟨hb, ht⟩ := h
    unfold insertByCountDesc
    by_cases hlt : a.2 < b.2
    · rw [if_pos hlt]
      rw [List.pairwise_cons]
      refine ⟨?_, ih ht⟩
      intro x hx
      rcases mem_insertByCountDesc.mp hx with rfl | hx'
      · exact le_of_lt hlt
      · exact hb x hx'
    · rw [if_neg hlt]
      rw [List.pairwise_cons]
      refine ⟨?_, ?_⟩
      · intro x hx
        rcases List.mem_cons.mp hx with rfl | hx'
        · exact Nat.le_of_not_lt hlt
        · exact le_trans (hb x hx') (Nat.le_of_not_lt hlt)
      · rw [List.pairwise_cons]
        exact ⟨hb, ht⟩

theorem pairwise_sortByCountDesc : ∀ (l : List (String × Nat)),
    List.Pairwise (fun x y => y.2 ≤ x.2) (sortByCountDesc l) := by
  intro l
  induction l with
  | nil => exact List.Pairwise.nil
  | cons a t ih => exact pairwise_insertByCountDesc a ih

theorem filter_insertByCountDesc (a : String × Nat) (c : Nat) :
    ∀ (l : List (String × Nat)),
    (insertByCountDesc a l).filter (fun p => p.2 == c)
      = if (a.2 == c) = true then a :: l.filter (fun p => p.2 == c)
        else l.filter (fun p => p.2 == c) := by
  intro l
  induction l with
  | nil =>
    unfold insertByCountDesc
    by_cases hc : (a.2 == c) = true <;> simp [hc, List.filter]
  | cons b t ih =>
    unfold insertByCountDesc
    by_cases hlt : a.2 < b.2
    · rw [if_pos hlt]
      by_cases hb : (b.2 == c) = true
      · have hac : (a.2 == c) = false := by
          rw [beq_eq_false_iff_ne]
          have hbc : b.2 = c := eq_of_beq hb
          exact Nat.ne_of_lt (hbc ▸ hlt)
        simp [List.filter_cons, hb, hac, ih]
      · have hbf : (b.2 == c) = false := by simpa using hb
        simp [List.filter_cons, hbf, ih]
    · rw [if_neg hlt]
      by_cases ha : (a.2 == c) = true
      · simp [List.filter_cons, ha]
      · have haf : (a.2 == c) = false := by simpa using ha
        simp [List.filter_cons, haf]

theorem filter_sortByCountDesc (c : Nat) : ∀ (l : List (String × Nat)),
    (sortByCountDesc l).filter (fun p => p.2 == c) = l.filter (fun p => p.2 == c) := by
  intro l
  induction l with
  | nil => rfl
  | cons a t ih =>
    show (insertByCountDesc a (sortByCountDesc t)).filter _ = _
    rw [filter_insertByCountDesc]
    by_cases ha : (a.2 == c) = true
    · simp [List.filter_cons, ha, ih]
    · have haf : (a.2 == c) = false := by simpa using ha
      simp [List.filter_cons, haf, ih]

theorem mem_jsEntries {p : String × Nat} {m : List (String × Nat)} :
    p ∈ jsEntries m ↔ p ∈ m := by
  simp only [jsEntries, List.mem_append, List.mem_insertionSort, List.mem_filter]
  by_cases h : isArrayIndexKey p.1 = true <;> simp [h]

/-- C4 counterexample: the claim says ties are broken by first-encountered
order, but JS object enumeration places array-index-like keys first: with the
field text dread dread 42 42 the frequency map records dread before 42 (the
first-encountered order of the tie), yet the displayed list puts 42 first.
The spec-order rendering of the same map keeps dread first. -/
theorem topTerms_tie_breaks_enumeration_order :
    buildFieldFreq [⟨"a", some [("emotionalContent", "dread dread 42 42")]⟩]
        "emotionalContent" = [("dread", 2), ("42", 2)] ∧
    topTermsFor [⟨"a", some [("emotionalContent", "dread dread 42 42")]⟩]
        "emotionalContent" = [("42", 2), ("dread", 2)] ∧
    displayTopTermsSpecOrder [("dread", 2), ("42", 2)] = [("dread", 2), ("42", 2)] := by
  decide

/-- C4 amended: each displayed top-terms list is the first five entries of the
stable descending-count sort of the frequency map in JS enumeration order; it
has at most 5 entries, every displayed term has length above one, consists of
lowercase letters and digits only and is not a stop word, entries are ordered
by non-increasing count, and ties are broken by the enumeration order of the
map — array-index-like tokens first in ascending numeric order, then the
remaining tokens in first-encountered order (captured by the per-count filter
equation below). -/
theorem topTerms_bounded_clean_sorted (docs : List StatsDreamDoc) (field : String) :
    topTermsFor docs field
      = (sortByCountDesc (jsEntries (buildFieldFreq docs field))).take 5 ∧
    (topTermsFor docs field).length ≤ 5 ∧
    (∀ p ∈ topTermsFor docs field, goodToken p.1 = true) ∧
    List.Pairwise (fun a b => b.2 ≤ a.2) (topTermsFor docs field) ∧
    (∀ c, (sortByCountDesc (jsEntries (buildFieldFreq docs field))).filter
        (fun p => p.2 == c)
      = (jsEntries (buildFieldFreq docs field)).filter (fun p => p.2 == c)) := by
  refine ⟨rfl, ?_, ?_, ?_, ?_⟩
  · show ((sortByCountDesc (jsEntries (buildFieldFreq docs field))).take 5).length ≤ 5
    rw [List.length_take]
    exact min_le_left _ _
  · intro p hp
    have hp1 : p ∈ sortByCountDesc (jsEntries (buildFieldFreq docs field)) :=
      (List.take_sublist 5 _).subset hp
    have hp2 : p ∈ buildFieldFreq docs field :=
      mem_jsEntries.mp (mem_sortByCountDesc.mp hp1)
    exact buildFieldFreq_keys docs field p hp2
  · exact List.Pairwise.sublist (List.take_sublist 5 _)
      (pairwise_sortByCountDesc (jsEntries (buildFieldFreq docs field)))
  · intro c
    exact filter_sortByCountDesc c (jsEntries (buildFieldFreq docs field))

/-- C4 witness: the amended theorem applied to a concrete two-dream store,
with the cap evaluated on it. -/
theorem topTerms_bounded_clean_sorted_witness :
    (topTermsFor [⟨"a", some [("emotionalContent", "wolf wolf moon river")]⟩,
        ⟨"b", some [("emotionalContent", "moon wolf")]⟩] "emotionalContent").length ≤ 5 ∧
    List.Pairwise (fun a b => b.2 ≤ a.2)
      (topTermsFor [⟨"a", some [("emotionalContent", "wolf wolf moon river")]⟩,
        ⟨"b", some [("emotionalContent", "moon wolf")]⟩] "emotionalContent") ∧
    topTermsFor [⟨"a", some [("emotionalContent", "wolf wolf moon river")]⟩,
        ⟨"b", some [("emotionalContent", "moon wolf")]⟩] "emotionalContent"
      = [("wolf", 3), ("moon", 2), ("river", 1)] :=
  ⟨(topTerms_bounded_clean_sorted _ "emotionalContent").2.1,
   (topTerms_bounded_clean_sorted _ "emotionalContent").2.2.2.1,
   by decide⟩

end DreamApp
